import Mathlib

/-!
Shallow embedding of the Schedule Reconciliation Engine of the medication
tracker (src/db/database.ts, src/utils/scheduleUtils.ts,
src/utils/weatherUtils.ts), together with theorems settling the frozen
claims about it.

Conventions of the embedding:
* TypeScript strings are Lean `String`; JS string comparison (`<`, `>`,
  `localeCompare`) is lexicographic by code unit, which on the ASCII
  timestamps used here coincides with Lean's `String` order.
* `null`-able fields become `Option`.
* JS numbers appearing only in comparisons (weather fields) are modelled by
  `JsNum`, an IEEE-754-faithful comparison domain (NaN, infinities, finite
  rationals); JS arithmetic on exact small quantities (adherence formula,
  staleness age) is modelled over `ℚ`, exact at every value the claims touch.
* The Dexie/IndexedDB store is a pure state (`StoreState`); a Dexie
  transaction is a single state transition, mirroring its atomicity.
* Wall-clock reads (`new Date()`, `dayjs()`) become explicit `now` parameters.
-/

/-- `Medication` record (src/types): a recurring medication definition. -/
structure Medication where
  id : String
  name : String
  dosage : String
  frequency : Nat
  times : List String
  startDate : String
  endDate : Option String
  memo : String
  createdAt : String
  updatedAt : String
deriving DecidableEq, Repr

/-- `MedicationRecord` (src/types): one recorded intake fact. -/
structure MedicationRecord where
  id : String
  medicationId : String
  scheduledTime : String
  actualTime : Option String
  completed : Bool
  createdAt : String
deriving DecidableEq, Repr

/-- `ScheduleItem` (src/types): a derived dated dosing occurrence. -/
structure ScheduleItem where
  id : String
  medicationId : String
  medicationName : String
  dosage : String
  scheduledTime : String
  completed : Bool
  actualTime : Option String
  recordId : Option String
deriving DecidableEq, Repr

/-- The persistence store (src/db/database.ts, class `MedicationDB`):
the two collections the claims touch, keyed by unique primary-key ids. -/
structure StoreState where
  medications : List Medication
  medicationRecords : List MedicationRecord
deriving DecidableEq, Repr

/-- JS string `<`: lexicographic comparison of the character sequences.  Lean's
own `String` order is the same relation, but its decision procedure is defined
by well-founded recursion, which the kernel cannot evaluate, so the embedding
compares the underlying character lists directly. -/
def strLt (a b : String) : Prop := a.data < b.data

/-- JS string `<=` (and the order used by `localeCompare` on these ASCII
timestamp strings): lexicographic on the character sequences. -/
def strLe (a b : String) : Prop := a.data ≤ b.data

instance (a b : String) : Decidable (strLt a b) :=
  inferInstanceAs (Decidable (a.data < b.data))

instance (a b : String) : Decidable (strLe a b) :=
  inferInstanceAs (Decidable (a.data ≤ b.data))

/-- `getMedicationById` (database.ts): `db.medications.get(id)` — primary-key
lookup, `undefined` (here `none`) when absent. -/
def getMedicationById (s : StoreState) (id : String) : Option Medication :=
  s.medications.find? (fun m => m.id == id)

/-- `getRecordsByMedicationId` (database.ts):
`db.medicationRecords.where("medicationId").equals(id).toArray()`. -/
def getRecordsByMedicationId (s : StoreState) (medicationId : String) :
    List MedicationRecord :=
  s.medicationRecords.filter (fun r => r.medicationId == medicationId)

/-- `deleteMedication` (database.ts): inside a single Dexie `rw` transaction,
delete the definition by primary key and all records whose `medicationId`
equals `id`.  The transaction is one atomic state transition, so the
embedding is a single function on `StoreState`; primary keys are unique, so
deleting by key is removing every row carrying that id. -/
def deleteMedication (s : StoreState) (id : String) : StoreState :=
  { medications := s.medications.filter (fun m => !(m.id == id)),
    medicationRecords :=
      s.medicationRecords.filter (fun r => !(r.medicationId == id)) }

/-- `getActiveMedications` (database.ts): keep definitions whose `endDate` is
`null` or lexicographically greater than the current instant string `now`
(`new Date().toISOString()` is passed in explicitly). -/
def getActiveMedications (s : StoreState) (now : String) : List Medication :=
  s.medications.filter (fun med =>
    match med.endDate with
    | none => true
    | some e => decide (strLt now e))

/-- `getRecordsByDateRange` (database.ts):
`where("scheduledTime").between(startDate, endDate, true, true)` — records
whose `scheduledTime` lies in the closed window, string-compared. -/
def getRecordsByDateRange (s : StoreState) (startDate endDate : String) :
    List MedicationRecord :=
  s.medicationRecords.filter (fun r =>
    decide (strLe startDate r.scheduledTime) && decide (strLe r.scheduledTime endDate))

/-- JS `Math.round`: round half toward positive infinity; on the nonnegative
values produced by the adherence formula this is round half away from zero. -/
def jsRound (q : ℚ) : ℤ := ⌊q + 1/2⌋

/-- `calculateAdherenceRate` (database.ts): fetch the records of the closed
window; `0` when none; otherwise
`Math.round((completedCount / records.length) * 1000) / 10`. -/
def calculateAdherenceRate (s : StoreState) (startDate endDate : String) : ℚ :=
  let records := getRecordsByDateRange s startDate endDate
  if records.length = 0 then 0
  else
    (jsRound (((records.filter (fun r => r.completed)).length : ℚ) /
        (records.length : ℚ) * 1000) : ℚ) / 10

/-- C1: after `deleteMedication id`, the combined postcondition holds in the
resulting store state: the definition lookup is absent and the record query
by that medication id is empty.  The Dexie transaction is modelled as one
atomic transition, so no state with only one half applied is reachable. -/
theorem C1_cascade_delete (s : StoreState) (id : String) :
    getMedicationById (deleteMedication s id) id = none ∧
    getRecordsByMedicationId (deleteMedication s id) id = [] := by
  constructor
  · apply List.find?_eq_none.mpr
    intro m hm
    have := List.of_mem_filter hm
    simpa using this
  · apply List.filter_eq_nil_iff.mpr
    intro r hr
    have := List.of_mem_filter hr
    simpa using this

/-- `dayjs(x).format("YYYY-MM-DD")` (scheduleUtils.ts) on the date and naive
ISO-8601 datetime strings this code produces and stores: the calendar-date
prefix, i.e. the first 10 characters. -/
def fmtYMD (s : String) : String := s.take 10

/-- The in-range test of `generateScheduleForDate` (scheduleUtils.ts lines
19-26): `targetDate >= startDate && (endDate === null || targetDate <= endDate)`
on normalized calendar-date strings. -/
def medInRange (med : Medication) (targetDate : String) : Bool :=
  decide (strLe (fmtYMD med.startDate) targetDate) &&
    (match med.endDate.map fmtYMD with
     | none => true
     | some e => decide (strLe targetDate e))

/-- The occurrence built in the inner loop of `generateScheduleForDate`
(scheduleUtils.ts lines 30-45): scheduled time `targetDate ++ "T" ++ time ++
":00"`, id `medicationId ++ "_" ++ scheduledTime`, not-done defaults. -/
def mkScheduleItem (med : Medication) (targetDate time : String) : ScheduleItem :=
  let scheduledTime := targetDate ++ "T" ++ time ++ ":00"
  { id := med.id ++ "_" ++ scheduledTime,
    medicationId := med.id,
    medicationName := med.name,
    dosage := med.dosage,
    scheduledTime := scheduledTime,
    completed := false,
    actualTime := none,
    recordId := none }

/-- The sort order of `generateScheduleForDate`'s final
`sort((a, b) => a.scheduledTime.localeCompare(b.scheduledTime))`:
string order on `scheduledTime`. -/
def itemLE (a b : ScheduleItem) : Prop := strLe a.scheduledTime b.scheduledTime

instance : DecidableRel itemLE := fun a b =>
  inferInstanceAs (Decidable (strLe a.scheduledTime b.scheduledTime))

instance : IsTotal ScheduleItem itemLE :=
  ⟨fun a b => le_total a.scheduledTime.data b.scheduledTime.data⟩

instance : IsTrans ScheduleItem itemLE :=
  ⟨fun _ _ _ h h2 => le_trans h h2⟩

/-- `generateScheduleForDate` (scheduleUtils.ts lines 11-51): normalize the
target date, emit one occurrence per time entry of every in-range definition,
then sort by the scheduled-time string.  JS `Array.prototype.sort` is a stable
sort, and a stable sort by a total preorder is extensionally unique, so it is
embedded as insertion sort by `itemLE`. -/
def generateScheduleForDate (medications : List Medication) (date : String) :
    List ScheduleItem :=
  let targetDate := fmtYMD date
  let scheduleItems := medications.flatMap (fun medication =>
    if medInRange medication targetDate then
      medication.times.map (fun time => mkScheduleItem medication targetDate time)
    else [])
  scheduleItems.insertionSort itemLE

/-- The Bool in-range check agrees with the claim's reading: `D >= startDate`
and (`endDate` null or `D <= endDate`), on normalized calendar-date strings. -/
theorem medInRange_iff (med : Medication) (t : String) :
    medInRange med t = true ↔
      (strLe (fmtYMD med.startDate) t ∧ ∀ e ∈ med.endDate, strLe t (fmtYMD e)) := by
  cases h : med.endDate <;> simp [medInRange, h]

/-- A definition with `startDate` 2024-01-01 and no end date (spec's boundary
example). -/
def medStartJan : Medication :=
  { id := "med_001", name := "テスト薬", dosage := "1錠", frequency := 1,
    times := ["08:00"], startDate := "2024-01-01", endDate := none,
    memo := "", createdAt := "2024-01-01T00:00:00", updatedAt := "2024-01-01T00:00:00" }

/-- A definition with `endDate` 2024-02-09 (spec's boundary example). -/
def medEndFeb9 : Medication :=
  { medStartJan with endDate := some "2024-02-09" }

/-- The spec's concrete scenario definition: `med_001` with times
08:00 and 20:00, started 2024-01-01, open-ended. -/
def med001 : Medication :=
  { medStartJan with frequency := 2, times := ["08:00", "20:00"] }

/-- A definition with an empty time-of-day list. -/
def medNoTimes : Medication :=
  { medStartJan with times := [] }

/-- C3: a definition yields occurrences on target date `D` iff
`D >= startDate` and (`endDate` is null or `D <= endDate`), compared as
normalized calendar-date strings, inclusive on both boundaries; with the
spec's concrete boundary instances. -/
theorem C3_boundary_inclusion :
    (∀ (med : Medication) (D : String), med.times ≠ [] →
      (generateScheduleForDate [med] D ≠ [] ↔
        (strLe (fmtYMD med.startDate) (fmtYMD D) ∧
          ∀ e ∈ med.endDate, strLe (fmtYMD D) (fmtYMD e))))
    ∧ generateScheduleForDate [medStartJan] "2024-01-01" ≠ []
    ∧ generateScheduleForDate [medStartJan] "2023-12-31" = []
    ∧ generateScheduleForDate [medEndFeb9] "2024-02-09" ≠ []
    ∧ generateScheduleForDate [medEndFeb9] "2024-02-10" = [] := by
  refine ⟨?_, by decide, by decide, by decide, by decide⟩
  intro med D htimes
  rw [← medInRange_iff]
  have hlen : (generateScheduleForDate [med] D).length =
      (if medInRange med (fmtYMD D) then med.times.length else 0) := by
    show (List.insertionSort itemLE _).length = _
    rw [(List.perm_insertionSort itemLE _).length_eq]
    cases h : medInRange med (fmtYMD D) <;> simp [h]
  constructor
  · intro hne
    by_contra hc
    rw [Bool.not_eq_true] at hc
    rw [hc, if_neg (by simp)] at hlen
    exact hne (List.length_eq_zero.mp hlen)
  · intro hr hc
    rw [hr, if_pos rfl, hc] at hlen
    exact htimes (List.length_eq_zero.mp hlen.symm)

/-- C3 witness: the in-range criterion instantiated at the start-boundary
definition and its start date. -/
theorem C3_boundary_inclusion_witness :
    medStartJan.times ≠ [] ∧
      (generateScheduleForDate [medStartJan] "2024-01-01" ≠ [] ↔
        (strLe (fmtYMD medStartJan.startDate) (fmtYMD "2024-01-01") ∧
          ∀ e ∈ medStartJan.endDate, strLe (fmtYMD "2024-01-01") (fmtYMD e))) :=
  ⟨by decide, C3_boundary_inclusion.1 medStartJan "2024-01-01" (by decide)⟩

/-- C5: the result is a permutation of one occurrence per time entry of every
in-range definition, each stamped `D ++ "T" ++ time ++ ":00"` with id
`definitionId ++ "_" ++ scheduledTime` (the content of `mkScheduleItem`);
the result is sorted ascending by the scheduled-time string; zero time
entries yield zero occurrences; and the spec's concrete scenario holds with
the 08:00 occurrence first. -/
theorem C5_per_time_emission :
    (∀ (defs : List Medication) (D : String),
      (generateScheduleForDate defs D).Perm
        (defs.flatMap (fun med =>
          if medInRange med (fmtYMD D) then
            med.times.map (fun time => mkScheduleItem med (fmtYMD D) time)
          else []))
      ∧ List.Pairwise itemLE (generateScheduleForDate defs D))
    ∧ (∀ (med : Medication) (D : String), med.times = [] →
        generateScheduleForDate [med] D = [])
    ∧ generateScheduleForDate [med001] "2024-02-09" =
        [{ id := "med_001_2024-02-09T08:00:00", medicationId := "med_001",
           medicationName := "テスト薬", dosage := "1錠",
           scheduledTime := "2024-02-09T08:00:00", completed := false,
           actualTime := none, recordId := none },
         { id := "med_001_2024-02-09T20:00:00", medicationId := "med_001",
           medicationName := "テスト薬", dosage := "1錠",
           scheduledTime := "2024-02-09T20:00:00", completed := false,
           actualTime := none, recordId := none }] := by
  refine ⟨fun defs D => ⟨?_, ?_⟩, ?_, by decide⟩
  · exact List.perm_insertionSort itemLE _
  · exact List.sorted_insertionSort itemLE _
  · intro med D h
    show List.insertionSort itemLE _ = []
    have hnil : [med].flatMap (fun medication =>
        if medInRange medication (fmtYMD D) then
          medication.times.map (fun time => mkScheduleItem medication (fmtYMD D) time)
        else []) = [] := by
      simp [h]
    rw [hnil]
    rfl

/-- C5 witness: the zero-times clause instantiated at a concrete definition. -/
theorem C5_per_time_emission_witness :
    medNoTimes.times = [] ∧ generateScheduleForDate [medNoTimes] "2024-02-09" = [] :=
  ⟨rfl, C5_per_time_emission.2.1 medNoTimes "2024-02-09" rfl⟩

/-- The merge key of `mergeScheduleWithRecords` (scheduleUtils.ts line 92) for
a record: `medicationId ++ "_" ++ scheduledTime`. -/
def recordKey (r : MedicationRecord) : String := r.medicationId ++ "_" ++ r.scheduledTime

/-- The merge key computed from an occurrence's own fields
(scheduleUtils.ts line 97). -/
def itemKey (item : ScheduleItem) : String := item.medicationId ++ "_" ++ item.scheduledTime

/-- The `Map` built by `mergeScheduleWithRecords` (scheduleUtils.ts lines
90-94): insert every record under its key in list order; `Map.set` overwrites,
so a later record with the same key replaces an earlier one.  The JS `Map` is
modelled by its lookup function. -/
def recordKeyMap (records : List MedicationRecord) : String → Option MedicationRecord :=
  records.foldl (fun m r => fun k => if k = recordKey r then some r else m k)
    (fun _ => none)

/-- `mergeScheduleWithRecords` (scheduleUtils.ts lines 85-111): look each
occurrence's key up in the record map; on a hit, copy `completed`,
`actualTime` and the record's id onto a fresh occurrence object; otherwise
return the occurrence unchanged.  The function reads no clock: it is a pure
function of its two arguments, as the claim requires. -/
def mergeScheduleWithRecords (scheduleItems : List ScheduleItem)
    (records : List MedicationRecord) : List ScheduleItem :=
  let recordMap := recordKeyMap records
  scheduleItems.map (fun item =>
    match recordMap (itemKey item) with
    | some record =>
        { item with completed := record.completed, actualTime := record.actualTime,
                    recordId := some record.id }
    | none => item)

/-- The last record in the list whose key is `k` (the record that wins the
`Map.set` collision, per the spec's last-write-wins reading). -/
def lastMatch (records : List MedicationRecord) (k : String) : Option MedicationRecord :=
  match records with
  | [] => none
  | r :: tl =>
    match lastMatch tl k with
    | some x => some x
    | none => if recordKey r == k then some r else none

theorem recordKeyMap_foldl_eq (records : List MedicationRecord)
    (m0 : String → Option MedicationRecord) (k : String) :
    records.foldl (fun m r => fun x => if x = recordKey r then some r else m x) m0 k =
      (match lastMatch records k with
       | some r => some r
       | none => m0 k) := by
  induction records generalizing m0 with
  | nil => simp [lastMatch]
  | cons r tl ih =>
    rw [List.foldl_cons, ih]
    show _ = (match lastMatch (r :: tl) k with | some x => some x | none => m0 k)
    rw [lastMatch]
    cases lastMatch tl k with
    | some x => rfl
    | none =>
      by_cases h : recordKey r = k
      · simp [h]
      · simp [h, Ne.symm h]

/-- The JS `Map` lookup returns exactly the last record inserted under `k`. -/
theorem recordKeyMap_eq_lastMatch (records : List MedicationRecord) (k : String) :
    recordKeyMap records k = lastMatch records k := by
  rw [recordKeyMap, recordKeyMap_foldl_eq]
  cases lastMatch records k <;> rfl

/-- C2: full characterization of the merge.  Each occurrence maps to itself
overlaid with the last record sharing its `medicationId_scheduledTime` key,
when one exists (copying `completed`, `actualTime`, `recordId`, all other
fields unchanged), and to itself otherwise; merging with an empty record list
is the identity; the output has one entry per input occurrence in the same
positions (order preserved); and a single record merges into exactly the
occurrences whose key equals its own key `M_T`.  The function takes no clock
input, so it cannot depend on wall-clock time. -/
theorem C2_merge_characterization (items : List ScheduleItem)
    (records : List MedicationRecord) :
    mergeScheduleWithRecords items records =
        items.map (fun item =>
          match lastMatch records (itemKey item) with
          | some r =>
              { item with completed := r.completed, actualTime := r.actualTime,
                          recordId := some r.id }
          | none => item)
      ∧ mergeScheduleWithRecords items [] = items
      ∧ (mergeScheduleWithRecords items records).length = items.length
      ∧ (∀ r : MedicationRecord,
          mergeScheduleWithRecords items [r] =
            items.map (fun item =>
              if itemKey item = recordKey r then
                { item with completed := r.completed, actualTime := r.actualTime,
                            recordId := some r.id }
              else item)) := by
  refine ⟨?_, ?_, ?_, ?_⟩
  · simp only [mergeScheduleWithRecords, recordKeyMap_eq_lastMatch]
  · simp [mergeScheduleWithRecords, recordKeyMap, lastMatch]
  · simp [mergeScheduleWithRecords]
  · intro r
    simp only [mergeScheduleWithRecords, recordKeyMap_eq_lastMatch]
    apply List.map_congr_left
    intro item _
    show (match (match (none : Option MedicationRecord) with
        | some x => some x
        | none => if recordKey r == itemKey item then some r else none) with
      | some record =>
          { item with completed := record.completed, actualTime := record.actualTime,
                      recordId := some record.id }
      | none => item) = _
    by_cases h : itemKey item = recordKey r
    · simp [h]
    · rw [if_neg h]
      have hne : ¬((recordKey r == itemKey item) = true) := by
        simp only [beq_iff_eq]
        exact fun hc => h (Eq.symm hc)
      rw [if_neg hne]

/-- C7: `getActiveMedications` returns exactly the definitions whose end date
is null or strictly greater (plain ISO-string order) than the current instant
string; a definition whose end-date string equals or precedes `now` is
excluded. -/
theorem C7_active_definitions (s : StoreState) (now : String) (m : Medication) :
    m ∈ getActiveMedications s now ↔
      (m ∈ s.medications ∧
        (m.endDate = none ∨ ∃ e, m.endDate = some e ∧ strLt now e)) := by
  rw [getActiveMedications, List.mem_filter]
  cases h : m.endDate <;> simp [h]

/-- An empty store, for witness instantiations. -/
def storeEmpty : StoreState := { medications := [], medicationRecords := [] }

/-- A store holding three records of one February day, one completed. -/
def storeFeb : StoreState :=
  { medications := [],
    medicationRecords :=
      [{ id := "rec_001", medicationId := "med_001",
         scheduledTime := "2024-02-09T08:00:00", actualTime := some "2024-02-09T08:05:00",
         completed := true, createdAt := "2024-02-09T08:05:00" },
       { id := "rec_002", medicationId := "med_001",
         scheduledTime := "2024-02-09T12:00:00", actualTime := none,
         completed := false, createdAt := "2024-02-09T08:05:00" },
       { id := "rec_003", medicationId := "med_001",
         scheduledTime := "2024-02-09T20:00:00", actualTime := none,
         completed := false, createdAt := "2024-02-09T08:05:00" }] }

/-- C4: the adherence computation considers exactly the records whose
`scheduledTime` lies in the closed window; with zero records in range it
returns `0` (the function is total over `ℚ`, so no `NaN` and no exception);
otherwise it returns `round((completedCount / totalCount) * 1000) / 10`,
where `jsRound` rounds the nonnegative per-mille value half away from zero
(fraction below one half rounds down, one half or more rounds up). -/
theorem C4_adherence_rate (s : StoreState) (a b : String) :
    (∀ r, r ∈ getRecordsByDateRange s a b ↔
        (r ∈ s.medicationRecords ∧ strLe a r.scheduledTime ∧ strLe r.scheduledTime b))
    ∧ (getRecordsByDateRange s a b = [] → calculateAdherenceRate s a b = 0)
    ∧ (getRecordsByDateRange s a b ≠ [] →
        calculateAdherenceRate s a b =
          (jsRound ((((getRecordsByDateRange s a b).filter (fun r => r.completed)).length : ℚ) /
              ((getRecordsByDateRange s a b).length : ℚ) * 1000) : ℚ) / 10)
    ∧ (∀ q : ℚ, 0 ≤ q →
        (Int.fract q < 1/2 → jsRound q = ⌊q⌋) ∧ (1/2 ≤ Int.fract q → jsRound q = ⌊q⌋ + 1)) := by
  refine ⟨?_, ?_, ?_, ?_⟩
  · intro r
    rw [getRecordsByDateRange, List.mem_filter]
    simp
  · intro h
    simp [calculateAdherenceRate, h]
  · intro h
    rw [calculateAdherenceRate, if_neg]
    simp [List.length_eq_zero, h]
  · intro q _
    have hfract : Int.fract q = q - ⌊q⌋ := Int.self_sub_floor q ▸ rfl
    constructor
    · intro hlt
      rw [jsRound, Int.floor_eq_iff]
      constructor
      · have := Int.floor_le q
        linarith
      · rw [Int.fract] at hlt
        linarith
    · intro hge
      rw [jsRound]
      have h1 : (⌊q⌋ : ℚ) + 1 ≤ q + 1/2 := by
        rw [Int.fract] at hge
        linarith
      have h2 : q + 1/2 < (⌊q⌋ : ℚ) + 2 := by
        have := Int.lt_floor_add_one q
        linarith
      rw [Int.floor_eq_iff]
      constructor
      · push_cast
        linarith
      · push_cast
        linarith

/-- C4 witness: the zero-record policy at the empty store, and the rounding
formula at a store where one of three in-window records is completed
(`round(1000/3)/10 = 33.3`). -/
theorem C4_adherence_rate_witness :
    (getRecordsByDateRange storeEmpty "2024-02-01T00:00:00" "2024-02-28T23:59:59" = [] ∧
      calculateAdherenceRate storeEmpty "2024-02-01T00:00:00" "2024-02-28T23:59:59" = 0) ∧
    calculateAdherenceRate storeFeb "2024-02-01T00:00:00" "2024-02-28T23:59:59" = 333/10 := by
  refine ⟨⟨by decide, ?_⟩, ?_⟩
  · exact (C4_adherence_rate storeEmpty "2024-02-01T00:00:00" "2024-02-28T23:59:59").2.1
      (by decide)
  · rw [(C4_adherence_rate storeFeb "2024-02-01T00:00:00" "2024-02-28T23:59:59").2.2.1
      (by decide)]
    have hrec : getRecordsByDateRange storeFeb "2024-02-01T00:00:00" "2024-02-28T23:59:59" =
        storeFeb.medicationRecords := by decide
    rw [hrec]
    have hfil : (storeFeb.medicationRecords.filter (fun r => r.completed)).length = 1 := by
      decide
    rw [hfil]
    have hlen : storeFeb.medicationRecords.length = 3 := by decide
    rw [hlen]
    norm_num [jsRound]

/-- JS `number` as it behaves under the comparisons in weatherUtils.ts: an
IEEE-754 double is NaN, an infinity, or a finite value (finite doubles are a
subset of `ℚ`); no arithmetic is performed on these fields, only `<` and
`>=`. -/
inductive JsNum where
  | nan
  | posInf
  | negInf
  | val (q : ℚ)
deriving DecidableEq, Repr

/-- IEEE-754 `<` (JS `<`): any comparison with NaN is false; otherwise the
extended-real order. -/
def JsNum.lt : JsNum → JsNum → Bool
  | JsNum.nan, _ => false
  | _, JsNum.nan => false
  | JsNum.negInf, JsNum.negInf => false
  | JsNum.negInf, _ => true
  | _, JsNum.negInf => false
  | JsNum.posInf, _ => false
  | JsNum.val _, JsNum.posInf => true
  | JsNum.val a, JsNum.val b => decide (a < b)

/-- IEEE-754 `>=` (JS `>=`): any comparison with NaN is false; otherwise the
extended-real order. -/
def JsNum.ge : JsNum → JsNum → Bool
  | JsNum.nan, _ => false
  | _, JsNum.nan => false
  | JsNum.posInf, _ => true
  | _, JsNum.posInf => false
  | JsNum.negInf, JsNum.negInf => true
  | JsNum.negInf, _ => false
  | JsNum.val _, JsNum.negInf => true
  | JsNum.val a, JsNum.val b => decide (b ≤ a)

/-- JS number-to-string coercion, up to the exact decimal rendering of finite
values (the alert messages interpolate the measurement; no claim inspects the
rendered digits). -/
def jsNumToString : JsNum → String
  | JsNum.nan => "NaN"
  | JsNum.posInf => "Infinity"
  | JsNum.negInf => "-Infinity"
  | JsNum.val q => toString q

/-- Geographic location carried by `WeatherData` (src/types). -/
structure GeoLocation where
  lat : JsNum
  lon : JsNum
deriving DecidableEq, Repr

/-- `WeatherData` (src/types): one weather measurement. -/
structure WeatherData where
  id : String
  timestamp : String
  temperature : JsNum
  humidity : JsNum
  description : String
  location : GeoLocation
deriving DecidableEq, Repr

/-- `HIGH_TEMP_THRESHOLD` (weatherUtils.ts line 4). -/
def HIGH_TEMP_THRESHOLD : JsNum := JsNum.val 30

/-- `HIGH_HUMIDITY_THRESHOLD` (weatherUtils.ts line 5). -/
def HIGH_HUMIDITY_THRESHOLD : JsNum := JsNum.val 80

/-- `checkWeatherAlerts` (weatherUtils.ts lines 12-40): push a high-temperature
advisory when `temperature >= 30`, then a high-humidity advisory when
`humidity >= 80`. -/
def checkWeatherAlerts (weather : WeatherData) : List String :=
  (if JsNum.ge weather.temperature HIGH_TEMP_THRESHOLD then
    ["高温注意: 現在" ++ jsNumToString weather.temperature ++
      "度です。薬の保管場所を確認してください。"]
  else []) ++
  (if JsNum.ge weather.humidity HIGH_HUMIDITY_THRESHOLD then
    ["高湿度注意: 湿度" ++ jsNumToString weather.humidity ++
      "%です。薬は密閉容器で保管してください。"]
  else [])

/-- `isStorageEnvironmentGood` (weatherUtils.ts lines 55-60):
`temperature < 30 && humidity < 80`. -/
def isStorageEnvironmentGood (weather : WeatherData) : Bool :=
  let tempIsOk := JsNum.lt weather.temperature HIGH_TEMP_THRESHOLD
  let humidityIsOk := JsNum.lt weather.humidity HIGH_HUMIDITY_THRESHOLD
  tempIsOk && humidityIsOk

/-- C8: `isStorageEnvironmentGood` is exactly the strict complement check
`temperature < 30 && humidity < 80`, yet it is not a perfect logical
complement of `checkWeatherAlerts` returning no advisories: a NaN
measurement (JS comparisons with NaN are all false) is not "good" but also
raises no advisory. -/
theorem C8_not_perfect_complements :
    (∀ w : WeatherData,
      isStorageEnvironmentGood w =
        (JsNum.lt w.temperature (JsNum.val 30) && JsNum.lt w.humidity (JsNum.val 80)))
    ∧ ∃ w : WeatherData,
        isStorageEnvironmentGood w ≠ decide (checkWeatherAlerts w = []) := by
  constructor
  · intro w
    rfl
  · refine ⟨{ id := "weather_001", timestamp := "2024-02-09T12:00:00.000Z",
              temperature := JsNum.nan, humidity := JsNum.val 50,
              description := "晴れ",
              location := { lat := JsNum.val 35, lon := JsNum.val 139 } }, ?_⟩
    decide

/-- `isWeatherDataStale` (weatherUtils.ts lines 85-97): `now` and the data
timestamp enter as epoch milliseconds (`Date.getTime()`), the difference is
converted to hours by dividing by `1000 * 60 * 60`, and the data is stale iff
that age is `>= maxAgeHours`. -/
def isWeatherDataStale (nowMs dataMs : ℤ) (maxAgeHours : ℚ) : Bool :=
  let timeDifference : ℤ := nowMs - dataMs
  let ageInHours : ℚ := (timeDifference : ℚ) / (1000 * 60 * 60)
  decide (ageInHours ≥ maxAgeHours)

/-- C9: staleness holds iff the age in hours is at least `maxAgeHours`, with
an inclusive boundary: data exactly 24 hours old (86400000 ms) is stale at
`maxAgeHours = 24`, data 23 hours 59 minutes old (86340000 ms) is not. -/
theorem C9_staleness_boundary (nowMs dataMs : ℤ) (maxAgeHours : ℚ) :
    (isWeatherDataStale nowMs dataMs maxAgeHours = true ↔
      ((nowMs : ℚ) - (dataMs : ℚ)) / 3600000 ≥ maxAgeHours)
    ∧ isWeatherDataStale nowMs (nowMs - 86400000) 24 = true
    ∧ isWeatherDataStale nowMs (nowMs - 86340000) 24 = false := by
  refine ⟨?_, ?_, ?_⟩
  · simp only [isWeatherDataStale, decide_eq_true_eq]
    push_cast
    norm_num
  · simp only [isWeatherDataStale, decide_eq_true_eq]
    push_cast
    rw [ge_iff_le, le_div_iff₀ (by norm_num)]
    ring_nf
    norm_num
  · simp only [isWeatherDataStale, decide_eq_false_iff_not]
    push_cast
    rw [ge_iff_le, le_div_iff₀ (by norm_num)]
    intro h
    have : (nowMs : ℚ) - (nowMs - 86340000) = 86340000 := by ring
    nlinarith [this]

/-- `dayjs` leap-year rule (proleptic Gregorian). -/
def isLeapYear (y : Nat) : Bool := (y % 4 == 0 && y % 100 != 0) || y % 400 == 0

/-- Days in a month of the proleptic Gregorian calendar used by `dayjs`. -/
def daysInMonth (y m : Nat) : Nat :=
  if m = 2 then (if isLeapYear y then 29 else 28)
  else if m = 4 ∨ m = 6 ∨ m = 9 ∨ m = 11 then 30
  else 31

/-- A calendar date as `dayjs` holds one for a date-only input (anchored at
local midnight): year, month (1-12), day (1-31). -/
structure CalDate where
  year : Nat
  month : Nat
  day : Nat
deriving DecidableEq, Repr

/-- `dayjs.add(1, "day")`: the next calendar day. -/
def CalDate.addOneDay (c : CalDate) : CalDate :=
  if c.day < daysInMonth c.year c.month then { c with day := c.day + 1 }
  else if c.month < 12 then { year := c.year, month := c.month + 1, day := 1 }
  else { year := c.year + 1, month := 1, day := 1 }

/-- Zero-pad to two digits (`dayjs` `MM` / `DD`). -/
def pad2 (n : Nat) : String := if n < 10 then "0" ++ toString n else toString n

/-- Zero-pad to four digits (`dayjs` `YYYY`). -/
def pad4 (n : Nat) : String :=
  if n < 10 then "000" ++ toString n
  else if n < 100 then "00" ++ toString n
  else if n < 1000 then "0" ++ toString n
  else toString n

/-- `dayjs.format("YYYY-MM-DD")` of a calendar date. -/
def CalDate.format (c : CalDate) : String :=
  pad4 c.year ++ "-" ++ pad2 c.month ++ "-" ++ pad2 c.day

/-- The loop guard of `generateScheduleForRange` (scheduleUtils.ts line 70),
`currentDate.isBefore(end) || currentDate.isSame(end, "day")`, evaluated on
midnight-anchored calendar dates: `cur` is on or before `end`. -/
def CalDate.onOrBefore (a b : CalDate) : Bool :=
  a.year < b.year ||
    (a.year == b.year &&
      (a.month < b.month || (a.month == b.month && decide (a.day ≤ b.day))))

/-- A strictly monotone (under `addOneDay`, for in-range day/month fields)
numbering of calendar dates, used only to bound the iteration count of the
source's `while` loop. -/
def CalDate.serial (c : CalDate) : Nat := c.year * 500 + c.month * 31 + c.day

/-- Fuel bounding the number of iterations of the `while` loop of
`generateScheduleForRange`: one more than the serial span of the range. -/
def rangeFuel (s e : CalDate) : Nat := e.serial + 1 - s.serial

/-- The `while` loop of `generateScheduleForRange` (scheduleUtils.ts lines
70-74): while the current date is on or before the end, bind the formatted
date key to that day's single-date schedule (the formatted key string is what
is passed on, exactly as in the source) and advance one day.  The explicit
fuel only bounds the iteration count; every claim below is settled in cases
where the loop provably runs the same number of steps. -/
def rangeLoop (medications : List Medication) (e : CalDate) :
    Nat → CalDate → List (String × List ScheduleItem)
  | 0, _ => []
  | Nat.succ fuel, cur =>
    if cur.onOrBefore e then
      (cur.format, generateScheduleForDate medications cur.format) ::
        rangeLoop medications e fuel cur.addOneDay
    else []

/-- `generateScheduleForRange` (scheduleUtils.ts lines 60-77): the
insertion-ordered map from formatted date keys to per-day schedules, built by
the `while` loop from `startDate` to `endDate`. -/
def generateScheduleForRange (medications : List Medication)
    (startDate endDate : CalDate) : List (String × List ScheduleItem) :=
  rangeLoop medications endDate (rangeFuel startDate endDate) startDate

/-- C6: a range whose start equals its end yields exactly the one-entry map
keyed by that date, whose value is the single-date result. -/
theorem C6_range_decomposition (medications : List Medication) (d : CalDate) :
    generateScheduleForRange medications d d =
      [(d.format, generateScheduleForDate medications d.format)] := by
  have hfuel : rangeFuel d d = 1 := by
    rw [rangeFuel]
    omega
  have hle : d.onOrBefore d = true := by
    simp [CalDate.onOrBefore]
  rw [generateScheduleForRange, hfuel, rangeLoop, hle]
  simp [rangeLoop]

/-- C10: when the start date falls on a strictly later calendar day than the
end date, the loop guard fails immediately and the result is the empty map —
no date keys, no error, no reversed range. -/
theorem C10_reversed_range_empty (medications : List Medication) (s e : CalDate)
    (h : e.year < s.year ∨
      (e.year = s.year ∧ (e.month < s.month ∨ (e.month = s.month ∧ e.day < s.day)))) :
    generateScheduleForRange medications s e = [] := by
  have hle : s.onOrBefore e = false := by
    simp only [CalDate.onOrBefore, Bool.or_eq_false_iff, Bool.and_eq_false_iff,
      decide_eq_false_iff_not, beq_eq_false_iff_ne, ne_eq]
    constructor
    · omega
    · rcases Nat.lt_or_ge s.year e.year with hy | hy
      · omega
      · by_cases hyy : s.year = e.year
        · right
          constructor
          · omega
          · by_cases hmm : s.month = e.month
            · right
              omega
            · left
              exact hmm
        · left
          exact hyy
  rw [generateScheduleForRange]
  cases rangeFuel s e with
  | zero => rfl
  | succ n =>
    rw [rangeLoop, hle]
    rfl

/-- February 9, 2024. -/
def dFeb9 : CalDate := { year := 2024, month := 2, day := 9 }

/-- February 10, 2024. -/
def dFeb10 : CalDate := { year := 2024, month := 2, day := 10 }

/-- C10 witness: the reversed one-day range from February 10 to February 9
produces the empty map. -/
theorem C10_reversed_range_empty_witness :
    (dFeb9.year < dFeb10.year ∨
      (dFeb9.year = dFeb10.year ∧
        (dFeb9.month < dFeb10.month ∨
          (dFeb9.month = dFeb10.month ∧ dFeb9.day < dFeb10.day)))) ∧
    generateScheduleForRange [med001] dFeb10 dFeb9 = [] :=
  ⟨by decide, C10_reversed_range_empty [med001] dFeb10 dFeb9 (by decide)⟩
